import Mathlib

/-!
Verification development for the mastodon_digest repository.

The Python sources are shallowly embedded as Lean definitions:

* `ScoredPost` (models.py) wraps the per-post `info` dict.  The HTML body
  (`info["content"]`) is modelled by its parsed features: the plain text that
  `BeautifulSoup(...).get_text()` extracts (`content_text`) and the list of
  `<a>` anchors with their `href` and `class` attributes (`anchors`);
  the HTML parsing itself is an external library call.
* Floating point arithmetic is idealised: exact values where the code only
  adds and compares decimal literals are carried in `ℚ`; values built from
  `math.sqrt` / `scipy.stats.gmean` are carried in `ℝ`.
* Python code that can raise is embedded in `Except`.
-/

namespace MastodonDigest

/-- Embedded Python errors relevant here.  `attributeError` models Python's
`AttributeError` (raised when an attribute that does not exist is accessed). -/
inductive PyErr where
  | attributeError
  deriving DecidableEq

/-- The `info["account"]` sub-record of a post, restricted to the fields the
scoring/threshold core reads: `acct` and `followers_count` (the follower count
is `-1` when hidden, hence `Int`). -/
structure Account where
  acct : String
  followers_count : Int
  deriving DecidableEq

/-- One `<a>` tag of the post body: its `href` and its `class` attribute
(`""` when the class attribute is empty/absent). -/
structure Anchor where
  href : String
  className : String
  deriving DecidableEq

/-- `ScoredPost` (models.py): an immutable view over one fetched record.
Fields are the entries of the `info` dict that the curation core reads.
`content_text` is the `BeautifulSoup(info["content"]).get_text()` plain text
and `anchors` the list of `<a>` tags of `info["content"]`. -/
structure ScoredPost where
  reblogs_count : Nat
  favourites_count : Nat
  replies_count : Nat
  account : Account
  content_text : String
  anchors : List Anchor
  deriving DecidableEq

/-- Model of Python's `str.lower()` (ASCII case folding, which is all the
repository's keyword lists exercise), written structurally over the character
list so that concrete instances evaluate by `decide`. -/
def pyLower (s : String) : String :=
  String.mk (s.data.map Char.toLower)

/-- Helper for `pySplit`: accumulates the current piece (reversed) in `cur`. -/
def pySplitAux (sep : Char) : List Char → List Char → List String
  | [], cur => [String.mk cur.reverse]
  | c :: cs, cur =>
    if c == sep then String.mk cur.reverse :: pySplitAux sep cs []
    else pySplitAux sep cs (c :: cur)

/-- Model of Python's `s.split(sep)` for a one-character separator: the pieces
between occurrences of `sep` (so `"".split("@") = [""]` and
`"a@b".split("@") = ["a", "b"]`). -/
def pySplit (sep : Char) (s : String) : List String :=
  pySplitAux sep s.data []

/-- A word character for Python's regex `\w` (ASCII fragment):
alphanumeric or underscore. -/
def isWordChar (c : Char) : Bool :=
  c.isAlphanum || c == '_'

/-- Helper for `findallWords`: scans the characters, accumulating the current
word (reversed) in `cur`, emitting a word at each non-word character. -/
def findallWordsAux : List Char → List Char → List String
  | [], cur => if cur.isEmpty then [] else [String.mk cur.reverse]
  | c :: cs, cur =>
    if isWordChar c then
      findallWordsAux cs (c :: cur)
    else if cur.isEmpty then
      findallWordsAux cs []
    else
      String.mk cur.reverse :: findallWordsAux cs []

/-- Model of Python's `re.findall(r"(\w+)", s)`: the list of maximal runs of
word characters of `s`, in order. -/
def findallWords (s : String) : List String :=
  findallWordsAux s.data []

/-- `ScoredPost.matches_keywords` (models.py): lowercases the plain text,
takes the set of `\w+` tokens, and reports whether it is not disjoint from
the caller-supplied keyword set.  The keywords themselves are compared
verbatim (the code does not lowercase them). -/
def ScoredPost.matches_keywords (p : ScoredPost) (keywords : List String) : Bool :=
  let toot_text := pyLower p.content_text
  let words_in_toot := (findallWords toot_text).dedup
  words_in_toot.any (fun w => keywords.contains w)

/-- `ScoredPost.count_keywords` (models.py): the size of the intersection of
the lowercased token set of the plain text with the keyword set. -/
def ScoredPost.count_keywords (p : ScoredPost) (keywords : List String) : Nat :=
  let toot_text := pyLower p.content_text
  let words_in_toot := (findallWords toot_text).dedup
  (words_in_toot.filter (fun w => keywords.contains w)).length

/-- A character pattern: `none` is the regex `.` wildcard, `some c` a literal. -/
def mkPat (s : String) : List (Option Char) :=
  s.data.map (fun c => if c == '.' then none else some c)

/-- Does one pattern character accept a character? -/
def charMatches (pc : Option Char) (c : Char) : Bool :=
  match pc with
  | none => true
  | some d => d == c

/-- Does the pattern match a prefix of the character list? -/
def patMatchesAt : List (Option Char) → List Char → Bool
  | [], _ => true
  | _ :: _, [] => false
  | pc :: ps, c :: cs => charMatches pc c && patMatchesAt ps cs

/-- Model of Python's `re.match(".*" + pat, s)` for a pattern `pat` whose only
metacharacter is `.`: the match succeeds iff `pat` matches at some position
of `s`. -/
def dotStarMatch (pat : List (Option Char)) : List Char → Bool
  | [] => patMatchesAt pat []
  | c :: cs => patMatchesAt pat (c :: cs) || dotStarMatch pat cs

/-- The three stubs of `ScoredPost.from_twitter` (models.py), with their
leading `.*` stripped: `.*nitter`, `.*/n.respublicae.eu`, `.*/t.co`. -/
def twitter_stub_pats : List (List (Option Char)) :=
  [mkPat "nitter", mkPat "/n.respublicae.eu", mkPat "/t.co"]

/-- The anchors that `find_all('a', attrs={'class':''})` selects: those whose
class attribute is empty (the platform's injected chrome links). -/
def ScoredPost.chromeAnchors (p : ScoredPost) : List Anchor :=
  p.anchors.filter (fun a => a.className == "")

/-- `ScoredPost.from_twitter` (models.py): adds `0.4` to the response for every
pair of a class-less anchor and a stub pattern that matches its `href`, then
caps the response at `1.0`.  The decimal arithmetic is carried exactly in `ℚ`. -/
def ScoredPost.from_twitter (p : ScoredPost) : ℚ :=
  let response : ℚ :=
    ((p.chromeAnchors).map (fun a =>
      ((twitter_stub_pats.filter (fun pat => dotStarMatch pat a.href.data)).length : ℚ)
        * (2 / 5))).sum
  min response 1

/-- The number of (class-less anchor, stub pattern) pairs of the post whose
`href` matches the pattern; `from_twitter` contributes `0.4` per such pair. -/
def ScoredPost.twitterMatchCount (p : ScoredPost) : Nat :=
  ((p.chromeAnchors).map (fun a =>
    (twitter_stub_pats.filter (fun pat => dotStarMatch pat a.href.data)).length)).sum

/-- `ScoredPost.link_urls` (models.py): the hrefs of the class-less anchors. -/
def ScoredPost.link_urls (p : ScoredPost) : List String :=
  (p.chromeAnchors).map (fun a => a.href)

/-- Modelled from the spec: the fraction of the post's outbound links that
match the disfavored-platform patterns, capped at 1, and 0 when the post has
no outbound links.  (Second definition for the refinement comparison of C5;
`from_twitter` above is the one translated from the source.) -/
def fraction_of_matching_links (p : ScoredPost) : ℚ :=
  let links := p.chromeAnchors
  if links.length = 0 then 0
  else
    min (((links.filter (fun a =>
      twitter_stub_pats.any (fun pat => dotStarMatch pat a.href.data))).length : ℚ)
        / (links.length : ℚ)) 1

/-- `get_full_account_name` (api.py): qualifies a bare handle with the default
host; the empty handle is returned unchanged. -/
def get_full_account_name (acct : String) (default_host : String) : String :=
  if acct = "" then ""
  else if (pySplit '@' acct).length = 2 then acct
  else acct ++ "@" ++ default_host

/-- `UniformWeight.weight` (scorers.py): the constant weight 1. -/
def UniformWeight.weight (_ : ScoredPost) : ℝ := 1

/-- `InverseFollowerWeight.weight` (scorers.py): 0 for accounts whose follower
count is zero or negative (hidden counts are reported as -1), otherwise the
inverse square root of the follower count. -/
noncomputable def InverseFollowerWeight.weight (p : ScoredPost) : ℝ :=
  if p.account.followers_count ≤ 0 then 0
  else 1 / Real.sqrt (p.account.followers_count : ℝ)

/-- `scipy.stats.gmean`: the geometric mean of a list, `(∏ xs) ^ (1/len xs)`. -/
noncomputable def gmean (xs : List ℝ) : ℝ :=
  xs.prod ^ (((xs.length : ℝ))⁻¹)

/-- `SimpleScorer.score` (scorers.py): the geometric mean of the reblog and
favourite counts each inflated by 1, or 0 when both raw counts are zero,
times the uniform weight (`super().weight` resolves to `UniformWeight`). -/
noncomputable def SimpleScorer.score (p : ScoredPost) : ℝ :=
  (if p.reblogs_count ≠ 0 ∨ p.favourites_count ≠ 0 then
    gmean [(p.reblogs_count : ℝ) + 1, (p.favourites_count : ℝ) + 1]
  else 0) * UniformWeight.weight p

/-- `SimpleWeightedScorer.score` (scorers.py): by the Python MRO,
`super().score` is `SimpleScorer.score` (whose inner `super().weight` still
resolves to `UniformWeight`) and `super().weight` is `InverseFollowerWeight`. -/
noncomputable def SimpleWeightedScorer.score (p : ScoredPost) : ℝ :=
  SimpleScorer.score p * InverseFollowerWeight.weight p

/-- `ExtendedSimpleScorer.score` (scorers.py): the geometric mean of the
reblog, favourite and reply counts each inflated by 1, or 0 when all three raw
counts are zero, times the uniform weight. -/
noncomputable def ExtendedSimpleScorer.score (p : ScoredPost) : ℝ :=
  (if p.reblogs_count ≠ 0 ∨ p.favourites_count ≠ 0 ∨ p.replies_count ≠ 0 then
    gmean [(p.reblogs_count : ℝ) + 1, (p.favourites_count : ℝ) + 1,
      (p.replies_count : ℝ) + 1]
  else 0) * UniformWeight.weight p

/-- `ExtendedSimpleWeightedScorer.score` (scorers.py): the extended aggregate
times the inverse-follower weight (by the same MRO reading as above). -/
noncomputable def ExtendedSimpleWeightedScorer.score (p : ScoredPost) : ℝ :=
  ExtendedSimpleScorer.score p * InverseFollowerWeight.weight p

/-- The four base scorer classes that `get_scorers()` (scorers.py) discovers
(`ConfiguredScorer` and `FilteredScorer` are excluded there). -/
inductive BaseScorer where
  | Simple
  | SimpleWeighted
  | ExtendedSimple
  | ExtendedSimpleWeighted
  deriving DecidableEq

/-- `Scorer.get_name` (scorers.py): the class name with `"Scorer"` removed. -/
def BaseScorer.get_name : BaseScorer → String
  | .Simple => "Simple"
  | .SimpleWeighted => "SimpleWeighted"
  | .ExtendedSimple => "ExtendedSimple"
  | .ExtendedSimpleWeighted => "ExtendedSimpleWeighted"

/-- `score` of each base scorer class. -/
noncomputable def BaseScorer.score : BaseScorer → ScoredPost → ℝ
  | .Simple => SimpleScorer.score
  | .SimpleWeighted => SimpleWeightedScorer.score
  | .ExtendedSimple => ExtendedSimpleScorer.score
  | .ExtendedSimpleWeighted => ExtendedSimpleWeightedScorer.score

/-- `weight` of each base scorer class, as resolved by the Python MRO:
the Simple variants inherit `UniformWeight.weight`, the Weighted variants
`InverseFollowerWeight.weight`. -/
noncomputable def BaseScorer.weight : BaseScorer → ScoredPost → ℝ
  | .Simple => UniformWeight.weight
  | .SimpleWeighted => InverseFollowerWeight.weight
  | .ExtendedSimple => UniformWeight.weight
  | .ExtendedSimpleWeighted => InverseFollowerWeight.weight

/-- `ConfiguredScorer` (scorers.py) after `__init__`: the default host, the
base scorer looked up by name, and the amplify-accounts mapping (a dict keyed
by fully-qualified handle; values are floats, carried here in `ℝ`). -/
structure ConfiguredScorer where
  default_host : String
  base_scorer : BaseScorer
  amplify_accounts : List (String × ℝ)

/-- `ConfiguredScorer.get_name` (scorers.py). -/
def ConfiguredScorer.get_name (s : ConfiguredScorer) : String :=
  "Configured" ++ s.base_scorer.get_name

/-- `ConfiguredScorer.weight` (scorers.py): the base weight times the amplify
factor of the fully-qualified handle, defaulting to 1.0. -/
noncomputable def ConfiguredScorer.weight (s : ConfiguredScorer) (p : ScoredPost) : ℝ :=
  let base_weight := s.base_scorer.weight p
  let acct := get_full_account_name p.account.acct s.default_host
  base_weight * ((s.amplify_accounts.lookup acct).getD 1)

/-- `ConfiguredScorer.score` (scorers.py): base score times configured weight. -/
noncomputable def ConfiguredScorer.score (s : ConfiguredScorer) (p : ScoredPost) : ℝ :=
  s.base_scorer.score p * s.weight p

/-- `FilteredScorer.filtered_account_boost` (scorers.py `__init__`): the fixed
constant added to the weighted score of filtered-account posts; the source
sets it to `-0.05`. -/
noncomputable def filtered_account_boost : ℝ := -0.05

/-- `FilteredScorer` (scorers.py) after `__init__`: default host, base scorer,
the filtered-handle set and the keyword set (already lowercased by
`__init__`). -/
structure FilteredScorer where
  default_host : String
  base_scorer : BaseScorer
  filtered_accounts : List String
  keywords : List String

/-- `FilteredScorer.__init__` (scorers.py): the stored keyword list is the
caller's list with every word lowercased. -/
def FilteredScorer.init (default_host : String) (base_scorer : BaseScorer)
    (filtered_accounts : List String) (keywords : List String) : FilteredScorer :=
  ⟨default_host, base_scorer, filtered_accounts, keywords.map pyLower⟩

/-- `FilteredScorer.get_name` (scorers.py). -/
def FilteredScorer.get_name (s : FilteredScorer) : String :=
  "Filtered" ++ s.base_scorer.get_name

/-- `FilteredScorer.is_filtered` (scorers.py): whether the fully-qualified
author handle is in the filtered-handle set. -/
def FilteredScorer.is_filtered (s : FilteredScorer) (p : ScoredPost) : Bool :=
  s.filtered_accounts.contains (get_full_account_name p.account.acct s.default_host)

/-- `FilteredScorer.weight` (scorers.py): for a filtered author, scan the
lowercased tokens of the plain text; on any keyword hit return the base weight
plus 1.0, otherwise the sentinel -1.0.  For other authors, the base weight. -/
noncomputable def FilteredScorer.weight (s : FilteredScorer) (p : ScoredPost) : ℝ :=
  let base_weight := s.base_scorer.weight p
  let acct := get_full_account_name p.account.acct s.default_host
  if s.filtered_accounts.contains acct then
    let toot_text := pyLower p.content_text
    let words_in_toot := (findallWords toot_text).dedup
    if words_in_toot.any (fun w => s.keywords.contains w) then base_weight + 1
    else -1
  else base_weight

/-- `FilteredScorer.score` (scorers.py): -1.0 when the weight is negative;
otherwise the base score times the weight, plus `filtered_account_boost` when
the author is in the filtered set. -/
noncomputable def FilteredScorer.score (s : FilteredScorer) (p : ScoredPost) : ℝ :=
  let w := s.weight p
  if w < 0 then -1
  else
    let acct := get_full_account_name p.account.acct s.default_host
    let sc := s.base_scorer.score p * w
    if s.filtered_accounts.contains acct then sc + filtered_account_boost else sc

/-- The duck-typed scorer interface that thresholds.py and run.py consume:
a display name (`get_name()`) and a score function (`post.get_score(scorer)`
delegates to `scorer.score(post)`).  The value type is a parameter so the same
embedding covers the real-valued concrete scorers and rational test scorers. -/
structure SPScorer (α : Type) where
  name : String
  score : ScoredPost → α

/-- Base scorer classes as the threshold/pipeline interface sees them. -/
noncomputable def BaseScorer.toScorer (b : BaseScorer) : SPScorer ℝ :=
  ⟨b.get_name, b.score⟩

/-- Configured scorers as the threshold/pipeline interface sees them. -/
noncomputable def ConfiguredScorer.toScorer (s : ConfiguredScorer) : SPScorer ℝ :=
  ⟨s.get_name, s.score⟩

/-- Filtered scorers as the threshold/pipeline interface sees them. -/
noncomputable def FilteredScorer.toScorer (s : FilteredScorer) : SPScorer ℝ :=
  ⟨s.get_name, s.score⟩

/-- The attribute access `post.is_filtered(scorer)` of thresholds.py line 33:
`ScoredPost` (models.py) defines no attribute `is_filtered` (the method of
that name lives on `FilteredScorer`), so Python raises `AttributeError` the
moment this is evaluated on any post. -/
def postIsFiltered {α : Type} (_ : ScoredPost) (_ : SPScorer α) : Except PyErr Bool :=
  .error .attributeError

/-- A Python list comprehension `[x for x in l if f(x)]` whose condition can
raise: conditions are evaluated left to right and the first exception
propagates. -/
def filterExcept {α : Type} (f : α → Except PyErr Bool) : List α → Except PyErr (List α)
  | [] => .ok []
  | x :: xs => do
    let b ← f x
    let rest ← filterExcept f xs
    return if b then x :: rest else rest

/-- `scipy.stats.scoreatpercentile`'s interpolation step on an already sorted
list: with `i = ⌊x⌋` and `frac = x - i`, the value is `s[i]` when `x` is
integral and `s[i] + frac * (s[i+1] - s[i])` otherwise (the default
`interpolation_method='fraction'`). -/
def interpAt {α : Type} [LinearOrderedField α] [FloorRing α] (s : List α) (x : α) : α :=
  if x - (⌊x⌋.toNat : α) = 0 then s.getD ⌊x⌋.toNat 0
  else s.getD ⌊x⌋.toNat 0
    + (x - (⌊x⌋.toNat : α)) * (s.getD (⌊x⌋.toNat + 1) 0 - s.getD ⌊x⌋.toNat 0)

/-- `scipy.stats.scoreatpercentile(scores, per)`: sort the scores and
interpolate at index `per / 100 * (n - 1)` (linear interpolation between
order statistics).  Callers in this repository only pass nonempty lists and
`per ∈ {90, 95, 98}`. -/
def scoreatpercentile {α : Type} [LinearOrderedField α] [FloorRing α]
    (scores : List α) (per : ℕ) : α :=
  interpAt (List.insertionSort (· ≤ ·) scores)
    ((per : α) * (((List.insertionSort (· ≤ ·) scores).length - 1 : ℕ) : α) / 100)

/-- The `Threshold` enum (thresholds.py). -/
inductive Threshold where
  | LAX
  | NORMAL
  | STRICT
  deriving DecidableEq

/-- The percentile value of each `Threshold` member. -/
def Threshold.value : Threshold → ℕ
  | .LAX => 90
  | .NORMAL => 95
  | .STRICT => 98

/-- `Threshold.posts_meeting_criteria` (thresholds.py).  For a scorer whose
name starts with `Filtered` (`re.search(r"^Filtered", ...)`) the code builds
`unfiltered_posts = [post for post in posts if post.is_filtered(scorer)]`
and its complement — note the swapped naming, and that `post.is_filtered`
does not exist on `ScoredPost`, so these comprehensions raise
`AttributeError` on the first element.  Otherwise the eligible posts are
those scoring at least 0; the cutoff is the percentile of their scores
(0 when there are none) and the posts scoring at least the cutoff survive;
for the filtered branch the positive-scoring complement would be appended. -/
def Threshold.posts_meeting_criteria {α : Type} [LinearOrderedField α] [FloorRing α]
    (t : Threshold) (posts : List ScoredPost) (scorer : SPScorer α) :
    Except PyErr (List ScoredPost) := do
  let isFilteredScorer := "Filtered".data.isPrefixOf scorer.name.data
  let pair ←
    if isFilteredScorer then do
      let unfiltered_posts ← filterExcept (fun p => postIsFiltered p scorer) posts
      let filtered_posts ←
        filterExcept (fun p => do return !(← postIsFiltered p scorer)) posts
      let eligible_unfiltered :=
        unfiltered_posts.filter (fun p => decide (0 ≤ scorer.score p))
      let eligible_filtered :=
        filtered_posts.filter (fun p => decide (0 < scorer.score p))
      pure (eligible_unfiltered, eligible_filtered)
    else
      pure (posts.filter (fun p => decide (0 ≤ scorer.score p)), ([] : List ScoredPost))
  let eligible_posts := pair.1
  let all_post_scores := eligible_posts.map scorer.score
  let min_score := if 0 < all_post_scores.length
    then scoreatpercentile all_post_scores t.value else 0
  let threshold_posts :=
    ((eligible_posts.zip all_post_scores).filter
      (fun x => decide (min_score ≤ x.2))).map Prod.fst
  return if isFilteredScorer then threshold_posts ++ pair.2 else threshold_posts

/-- The hardcoded filtered-accounts set of run.py line 122. -/
def run_filtered_accounts : List String :=
  ["EEAS@social.network.europa.eu", "EU_UNGeneva@respublicae.eu",
    "rmartinnielsen@mastodon.social"]

/-- The hardcoded mixed-case keyword list of run.py line 124. -/
def run_keywords_mixedcase : List String :=
  ["TPNW", "nuclear", "missiles", "missile", "nonprolifwp", "armscontrol",
    "nonproliferation", "autonomousweapons", "killerrobots", "SALW",
    "ConferenceOnDisarmament", "chemicalweapons", "chemicalweapon",
    "nuclearweapons", "disarmament", "opcw", "landmines", "biowarfare",
    "biologicalweapons", "ICBM", "ICBMs"]

/-- run.py line 125: the keyword set, lowercased. -/
def run_keywords : List String :=
  run_keywords_mixedcase.map pyLower

/-- Python's stable `sorted(key=lambda post: post.get_score(scorer),
reverse=True)`: descending by score, ties kept in input order (insertion sort
with the reflexive descending comparison is stable the same way). -/
def sortedByScoreDesc {α : Type} [LinearOrderedField α]
    (scorer : SPScorer α) (l : List ScoredPost) : List ScoredPost :=
  List.insertionSort (fun a b => scorer.score b ≤ scorer.score a) l

/-- run.py lines 135-136: the account/keyword pre-filter applied to the
fetched posts (and likewise boosts): keep a post unless its (unqualified)
author handle is in the hardcoded filtered-accounts set and it matches no
keyword. -/
def runPreFilter (posts : List ScoredPost) : List ScoredPost :=
  posts.filter (fun p =>
    !(run_filtered_accounts.contains p.account.acct)
      || p.matches_keywords run_keywords)

/-- The selection-and-ranking core of `run` (run.py lines 133-230) for one of
the two item lists (posts; boosts go through the identical code): after the
pre-filter, the calls to `threshold.posts_meeting_criteria` are commented out
(lines 179-180); what is handed to rendering as `threshold_posts` is the
pre-filtered posts with strictly positive score, sorted by score descending
(lines 198-201 build `sorted_posts_drop_zeroes`, lines 225-227 sort it
again).  The configured `Threshold` is consulted only for its display name. -/
def runPipelinePosts {α : Type} [LinearOrderedField α]
    (scorer : SPScorer α) (posts : List ScoredPost) : List ScoredPost :=
  let filtered_posts := runPreFilter posts
  let sorted_posts_drop_zeroes :=
    sortedByScoreDesc scorer
      (filtered_posts.filter (fun p => decide (0 < scorer.score p)))
  let threshold_posts := sortedByScoreDesc scorer sorted_posts_drop_zeroes
  threshold_posts

/-- A post differing from `p` only in the author's follower count. -/
def ScoredPost.setFollowers (p : ScoredPost) (f : Int) : ScoredPost :=
  { p with account := { p.account with followers_count := f } }

/-- Concrete post: zero engagement counts, unfiltered author. -/
def pA : ScoredPost :=
  ⟨0, 0, 0, ⟨"alice@h", 10⟩, "", []⟩

/-- Concrete post: 3 reblogs (simple aggregate `gmean [4, 1] = 2`). -/
def pB : ScoredPost :=
  ⟨3, 0, 0, ⟨"bob@h", 10⟩, "", []⟩

/-- Concrete post: 8 reblogs (simple aggregate `gmean [9, 1] = 3`). -/
def pC : ScoredPost :=
  ⟨8, 0, 0, ⟨"carol@h", 10⟩, "", []⟩

/-- Concrete post with a single class-less anchor to a `t.co` link. -/
def pT : ScoredPost :=
  ⟨0, 0, 0, ⟨"dana@h", 10⟩, "", [⟨"https://t.co/abc", ""⟩]⟩

/-- Concrete post whose text contains the word `Nuclear` (mixed case). -/
def pK : ScoredPost :=
  ⟨0, 0, 0, ⟨"erin@h", 10⟩, "Nuclear weapons", []⟩

/-- Concrete post with the same text as `pK` up to letter case. -/
def pK2 : ScoredPost :=
  ⟨1, 0, 0, ⟨"erin@h", 10⟩, "NUCLEAR WEAPONS", []⟩

/-- Concrete post by a watched (filtered) author whose text matches no
configured keyword. -/
def pW : ScoredPost :=
  ⟨3, 0, 0, ⟨"watch", 10⟩, "about something else", []⟩

/-- Concrete post by a watched (filtered) author whose text contains the
keyword `nuclear`. -/
def pM : ScoredPost :=
  ⟨3, 0, 0, ⟨"watch", 10⟩, "nuclear news", []⟩

/-- Concrete post whose author handle is the empty string. -/
def pE : ScoredPost :=
  ⟨0, 0, 0, ⟨"", 10⟩, "", []⟩

/-- A concrete `FilteredScorer` over the Simple base: one watched handle and
one keyword. -/
def fsEx : FilteredScorer :=
  ⟨"h", .Simple, ["watch@h"], ["nuclear"]⟩

/-- A concrete `ConfiguredScorer` whose amplify map has no entry for `""`. -/
def cfgEx : ConfiguredScorer :=
  ⟨"h", .Simple, [("amp@h", 2)]⟩

/-- A rational-valued scorer through the threshold interface, named like a
configured scorer and giving every post a negative score (as a configured
scorer with a negative amplify factor would). -/
def negConfScorer : SPScorer ℚ :=
  ⟨"ConfiguredSimple", fun _ => -1⟩

/-- A rational-valued scorer through the threshold interface, named like the
Simple scorer and scoring each post by its reblog count. -/
def qSimpleScorer : SPScorer ℚ :=
  ⟨"Simple", fun p => (p.reblogs_count : ℚ)⟩

/-- The eligible posts of the non-filtered branch of
`Threshold.posts_meeting_criteria`: those scoring at least 0. -/
def eligibleNF {α : Type} [LinearOrderedField α]
    (posts : List ScoredPost) (scorer : SPScorer α) : List ScoredPost :=
  posts.filter (fun p => decide (0 ≤ scorer.score p))

/-- The `min_score` cutoff of the non-filtered branch: the percentile of the
eligible scores, or 0 when there are none. -/
def cutoffNF {α : Type} [LinearOrderedField α] [FloorRing α]
    (t : Threshold) (posts : List ScoredPost) (scorer : SPScorer α) : α :=
  if 0 < (eligibleNF posts scorer).length then
    scoreatpercentile ((eligibleNF posts scorer).map scorer.score) t.value
  else 0

/-- The result of the non-filtered branch of
`Threshold.posts_meeting_criteria` in closed form: the eligible posts whose
score reaches the cutoff (proved equal to the source translation below). -/
def selectNF {α : Type} [LinearOrderedField α] [FloorRing α]
    (t : Threshold) (posts : List ScoredPost) (scorer : SPScorer α) : List ScoredPost :=
  (eligibleNF posts scorer).filter
    (fun p => decide (cutoffNF t posts scorer ≤ scorer.score p))

lemma sum_map_cast_mul (l : List Anchor) (c : Anchor → ℕ) (k : ℚ) :
    (l.map (fun a => (c a : ℚ) * k)).sum = ((l.map c).sum : ℚ) * k := by
  induction l with
  | nil => simp
  | cons a l ih => simp [ih]; ring

lemma from_twitter_eq_min (p : ScoredPost) :
    p.from_twitter = min ((p.twitterMatchCount : ℚ) * (2 / 5)) 1 := by
  rw [ScoredPost.from_twitter, ScoredPost.twitterMatchCount,
    sum_map_cast_mul (p.chromeAnchors)
      (fun a => (twitter_stub_pats.filter (fun pat => dotStarMatch pat a.href.data)).length)
      (2 / 5)]

/-- C5 (counterexample): a post with exactly one outbound link, matching the
`t.co` pattern, gets `from_twitter = 0.4`, while the fraction of matching
links is `1`; so `from_twitter` is not the matching fraction. -/
theorem C5_from_twitter_counterexample :
    pT.from_twitter = 2 / 5 ∧ fraction_of_matching_links pT = 1 ∧
    pT.from_twitter ≠ fraction_of_matching_links pT := by
  have h1 : pT.from_twitter = 2 / 5 := by
    rw [from_twitter_eq_min, show pT.twitterMatchCount = 1 from by decide]
    rw [min_eq_left (by norm_num)]
    norm_num
  have h2 : fraction_of_matching_links pT = 1 := by
    rw [fraction_of_matching_links]
    rw [show pT.chromeAnchors = [⟨"https://t.co/abc", ""⟩] from by decide]
    rw [show (List.filter (fun a => twitter_stub_pats.any
      (fun pat => dotStarMatch pat a.href.data))
      [(⟨"https://t.co/abc", ""⟩ : Anchor)]) = [⟨"https://t.co/abc", ""⟩] from by decide]
    norm_num
  refine ⟨h1, h2, ?_⟩
  rw [h1, h2]
  norm_num

/-- C5 (amended): `from_twitter` returns `min(0.4 · k, 1)` where `k` counts
the (outbound link, disfavored-platform pattern) pairs that match — not the
fraction of matching links; the value always lies in `[0, 1]` and a post with
no outbound links gets exactly `0`. -/
theorem C5_from_twitter_amended (p : ScoredPost) :
    p.from_twitter = min ((p.twitterMatchCount : ℚ) * (2 / 5)) 1 ∧
    0 ≤ p.from_twitter ∧ p.from_twitter ≤ 1 ∧
    (p.chromeAnchors = [] → p.from_twitter = 0) := by
  have hval := from_twitter_eq_min p
  refine ⟨hval, ?_, ?_, ?_⟩
  · rw [hval]
    have : (0 : ℚ) ≤ (p.twitterMatchCount : ℚ) * (2 / 5) := by positivity
    exact le_min this (by norm_num)
  · rw [hval]; exact min_le_right _ _
  · intro hnil
    rw [hval, ScoredPost.twitterMatchCount, hnil]
    norm_num

/-- C5 (witness for the amended theorem): the zero-link post `pA` evaluates
to `from_twitter = 0`. -/
theorem C5_from_twitter_amended_witness :
    pA.chromeAnchors = [] ∧ pA.from_twitter = 0 :=
  ⟨by decide, (C5_from_twitter_amended pA).2.2.2 (by decide)⟩

/-- C6 (counterexample): keyword matching lowercases the post text but not
the caller-supplied keywords, so the uppercase keyword `NUCLEAR` never
matches a post that contains `Nuclear`, while the lowercase form does:
the match is not insensitive to the case of the supplied keywords. -/
theorem C6_keyword_case_counterexample :
    pK.matches_keywords ["NUCLEAR"] = false ∧
    pK.matches_keywords ["nuclear"] = true ∧
    pK.count_keywords ["NUCLEAR"] = 0 ∧
    pK.count_keywords ["nuclear"] = 1 := by
  refine ⟨by decide, by decide, by decide, by decide⟩

/-- C6 (amended): `matches_keywords` tokenizes the lowercased plain text on
word boundaries and reports whether the token set meets the keyword set as
given (keywords are compared verbatim, not case-folded); `count_keywords` is
the size of that intersection; the match is insensitive to the case of the
post text (it only depends on the lowercased text). -/
theorem C6_matches_keywords_amended (p q : ScoredPost) (ks : List String)
    (hpq : pyLower p.content_text = pyLower q.content_text) :
    (p.matches_keywords ks = true ↔
      ∃ w ∈ findallWords (pyLower p.content_text), w ∈ ks) ∧
    (p.matches_keywords ks = true ↔ 0 < p.count_keywords ks) ∧
    p.count_keywords ks =
      (ks.dedup.filter
        (fun k => (findallWords (pyLower p.content_text)).contains k)).length ∧
    p.matches_keywords ks = q.matches_keywords ks ∧
    p.count_keywords ks = q.count_keywords ks := by
  constructor
  · rw [ScoredPost.matches_keywords, List.any_eq_true]
    constructor
    · rintro ⟨w, hw, hwk⟩
      exact ⟨w, (List.mem_dedup).1 hw, by simpa using hwk⟩
    · rintro ⟨w, hw, hwk⟩
      exact ⟨w, (List.mem_dedup).2 hw, by simpa using hwk⟩
  refine ⟨?_, ?_, ?_, ?_⟩
  · rw [ScoredPost.matches_keywords, ScoredPost.count_keywords,
      List.any_eq_true, List.length_pos]
    constructor
    · rintro ⟨w, hw, hwk⟩
      intro hcon
      exact (List.filter_eq_nil_iff.1 hcon) w hw hwk
    · intro hne
      rcases List.exists_mem_of_ne_nil _ hne with ⟨w, hw⟩
      rcases List.mem_filter.1 hw with ⟨hw1, hw2⟩
      exact ⟨w, hw1, hw2⟩
  · rw [ScoredPost.count_keywords]
    have hW : ((findallWords (pyLower p.content_text)).dedup.filter
        (fun w => ks.contains w)).Nodup :=
      (List.nodup_dedup _).filter _
    have hK : (ks.dedup.filter
        (fun k => (findallWords (pyLower p.content_text)).contains k)).Nodup :=
      (List.nodup_dedup _).filter _
    rw [← List.toFinset_card_of_nodup hW, ← List.toFinset_card_of_nodup hK]
    congr 1
    rw [List.toFinset_filter, List.toFinset_filter]
    ext w
    simp [List.mem_dedup, And.comm]
  · rw [ScoredPost.matches_keywords, ScoredPost.matches_keywords, hpq]
  · rw [ScoredPost.count_keywords, ScoredPost.count_keywords, hpq]

/-- C6 (witness for the amended theorem): two posts whose texts agree up to
letter case classify identically against the lowercase keyword `nuclear`. -/
theorem C6_matches_keywords_amended_witness :
    pyLower pK.content_text = pyLower pK2.content_text ∧
    pK.matches_keywords ["nuclear"] = pK2.matches_keywords ["nuclear"] :=
  ⟨by decide, (C6_matches_keywords_amended pK pK2 ["nuclear"] (by decide)).2.2.2.1⟩

/-- C7: the inverse-follower weight is 0 whenever the follower count is ≤ 0,
equals `1/√followers` for positive counts, and is strictly decreasing in the
follower count: of two otherwise identical posts, the one whose author has
fewer (but positive) followers weighs strictly more. -/
theorem C7_inverse_follower_weight (p : ScoredPost) (f1 f2 : Int)
    (h1 : 0 < f1) (h12 : f1 < f2) :
    (∀ q : ScoredPost, q.account.followers_count ≤ 0 →
      InverseFollowerWeight.weight q = 0) ∧
    InverseFollowerWeight.weight (p.setFollowers f1) = 1 / Real.sqrt (f1 : ℝ) ∧
    InverseFollowerWeight.weight (p.setFollowers f2)
      < InverseFollowerWeight.weight (p.setFollowers f1) := by
  have hzero : ∀ q : ScoredPost, q.account.followers_count ≤ 0 →
      InverseFollowerWeight.weight q = 0 := by
    intro q hq
    rw [InverseFollowerWeight.weight, if_pos hq]
  have hval : ∀ f : Int, 0 < f →
      InverseFollowerWeight.weight (p.setFollowers f) = 1 / Real.sqrt (f : ℝ) := by
    intro f hf
    rw [InverseFollowerWeight.weight, ScoredPost.setFollowers, if_neg (not_le.2 hf)]
  have h2 : (0 : ℤ) < f2 := lt_trans h1 h12
  refine ⟨hzero, hval f1 h1, ?_⟩
  rw [hval f1 h1, hval f2 h2]
  have hs1 : (0 : ℝ) < Real.sqrt (f1 : ℝ) := by
    apply Real.sqrt_pos.2
    exact_mod_cast h1
  have hs12 : Real.sqrt (f1 : ℝ) < Real.sqrt (f2 : ℝ) := by
    apply Real.sqrt_lt_sqrt (by exact_mod_cast h1.le)
    exact_mod_cast h12
  exact one_div_lt_one_div_of_lt hs1 hs12

/-- C7 (witness): a post with 100 followers outweighs the identical post with
10000 followers. -/
theorem C7_inverse_follower_weight_witness :
    (0 : ℤ) < 100 ∧ (100 : ℤ) < 10000 ∧
    InverseFollowerWeight.weight (pA.setFollowers 10000)
      < InverseFollowerWeight.weight (pA.setFollowers 100) :=
  ⟨by decide, by decide,
    (C7_inverse_follower_weight pA 100 10000 (by decide) (by decide)).2.2⟩

/-- C8: a post with zero reshares, zero favourites and zero replies scores
exactly 0 under all four base scorer variants. -/
theorem C8_zero_counts_zero_score (p : ScoredPost)
    (hr : p.reblogs_count = 0) (hf : p.favourites_count = 0)
    (hrep : p.replies_count = 0) :
    SimpleScorer.score p = 0 ∧ SimpleWeightedScorer.score p = 0 ∧
    ExtendedSimpleScorer.score p = 0 ∧ ExtendedSimpleWeightedScorer.score p = 0 := by
  have hsimple : SimpleScorer.score p = 0 := by
    rw [SimpleScorer.score, if_neg (by simp [hr, hf]), zero_mul]
  have hext : ExtendedSimpleScorer.score p = 0 := by
    rw [ExtendedSimpleScorer.score, if_neg (by simp [hr, hf, hrep]), zero_mul]
  refine ⟨hsimple, ?_, hext, ?_⟩
  · rw [SimpleWeightedScorer.score, hsimple, zero_mul]
  · rw [ExtendedSimpleWeightedScorer.score, hext, zero_mul]

/-- C8 (witness): the zero-engagement post `pA` scores 0 under all four
variants. -/
theorem C8_zero_counts_zero_score_witness :
    SimpleScorer.score pA = 0 ∧ SimpleWeightedScorer.score pA = 0 ∧
    ExtendedSimpleScorer.score pA = 0 ∧ ExtendedSimpleWeightedScorer.score pA = 0 :=
  C8_zero_counts_zero_score pA rfl rfl rfl

/-- C10: qualifying the empty handle yields the empty string (not `"@" ++
host`); consequently a post with an empty author handle is looked up under
`""`, receives amplification factor 1.0 in `ConfiguredScorer.weight` when
`""` is not an amplify key, and is classified unfiltered by
`FilteredScorer.is_filtered` when `""` is not a filtered handle. -/
theorem C10_empty_handle (h : String) (cfg : ConfiguredScorer)
    (fs : FilteredScorer) (p : ScoredPost)
    (hacct : p.account.acct = "")
    (hamp : cfg.amplify_accounts.lookup "" = none)
    (hfil : "" ∉ fs.filtered_accounts) :
    get_full_account_name "" h = "" ∧
    cfg.weight p = cfg.base_scorer.weight p ∧
    fs.is_filtered p = false := by
  have hempty : ∀ host : String, get_full_account_name "" host = "" := by
    intro host
    rw [get_full_account_name, if_pos rfl]
  refine ⟨hempty h, ?_, ?_⟩
  · rw [ConfiguredScorer.weight]
    simp only [hacct, hempty, hamp, Option.getD_none, mul_one]
  · rw [FilteredScorer.is_filtered]
    simp only [hacct, hempty]
    simpa using hfil

/-- C10 (witness): concrete configured and filtered scorers with no entry for
the empty handle, applied to the empty-handle post `pE`. -/
theorem C10_empty_handle_witness :
    pE.account.acct = "" ∧
    cfgEx.amplify_accounts.lookup "" = none ∧
    "" ∉ fsEx.filtered_accounts ∧
    (get_full_account_name "" "h" = "" ∧
      cfgEx.weight pE = cfgEx.base_scorer.weight pE ∧
      fsEx.is_filtered pE = false) :=
  ⟨by decide, by decide, by decide,
    C10_empty_handle "h" cfgEx fsEx pE (by decide) (by decide) (by decide)⟩

lemma inverse_follower_weight_nonneg (p : ScoredPost) :
    0 ≤ InverseFollowerWeight.weight p := by
  rw [InverseFollowerWeight.weight]
  split
  · exact le_refl 0
  · positivity

lemma base_weight_nonneg (b : BaseScorer) (p : ScoredPost) :
    0 ≤ b.weight p := by
  cases b
  · rw [BaseScorer.weight, UniformWeight.weight]; norm_num
  · exact inverse_follower_weight_nonneg p
  · rw [BaseScorer.weight, UniformWeight.weight]; norm_num
  · exact inverse_follower_weight_nonneg p

/-- C3 (counterexample): for a filtered author whose post matches a keyword,
the score is the weighted base score plus the negative constant `-0.05`
(scorers.py sets `filtered_account_boost = -0.05`), hence strictly below the
weighted base score, not above it: the post `pM` by the watched handle
`watch@h` containing the keyword `nuclear` gets weight 2 and score 3.95,
while `base.score × weight = 4`. -/
theorem C3_filtered_boost_counterexample :
    fsEx.weight pM = 2 ∧ fsEx.score pM = 3.95 ∧
    fsEx.score pM < fsEx.base_scorer.score pM * fsEx.weight pM := by
  have hacct : get_full_account_name pM.account.acct fsEx.default_host = "watch@h" := by
    decide
  have hcontains : fsEx.filtered_accounts.contains "watch@h" = true := by decide
  have hmatch : ((findallWords (pyLower pM.content_text)).dedup.any
      (fun w => fsEx.keywords.contains w)) = true := by decide
  have hbase : fsEx.base_scorer.weight pM = 1 := by
    rw [show fsEx.base_scorer = .Simple from rfl]
    rw [BaseScorer.weight, UniformWeight.weight]
  have hw : fsEx.weight pM = 2 := by
    rw [FilteredScorer.weight]
    simp only [hacct, hcontains, if_true, hmatch, hbase]
    norm_num
  have hbs : fsEx.base_scorer.score pM = 2 := by
    rw [show fsEx.base_scorer = .Simple from rfl]
    rw [BaseScorer.score, SimpleScorer.score, if_pos (by decide), UniformWeight.weight]
    rw [show ((pM.reblogs_count : ℝ) + 1) = 4 from by norm_num [pM]]
    rw [show ((pM.favourites_count : ℝ) + 1) = 1 from by norm_num [pM]]
    rw [gmean]
    norm_num
    rw [show (4 : ℝ) = 2 ^ (2 : ℕ) from by norm_num]
    rw [← Real.rpow_natCast 2 2, ← Real.rpow_mul (by norm_num)]
    norm_num
  have hs : fsEx.score pM = 3.95 := by
    rw [FilteredScorer.score]
    simp only [hw, hacct, hcontains, if_true]
    rw [if_neg (by norm_num), hbs, filtered_account_boost]
    norm_num
  refine ⟨hw, hs, ?_⟩
  rw [hw, hs, hbs]
  norm_num

/-- C3 (amended): for a filtered-set author whose text matches a configured
keyword, `score = base.score × weight + c` where `c = -0.05` is a small
negative constant; in particular `score < base.score × weight` (the claim's
strict inequality holds in the opposite direction). -/
theorem C3_filtered_boost_amended (s : FilteredScorer) (p : ScoredPost)
    (hf : s.is_filtered p = true)
    (hk : ((findallWords (pyLower p.content_text)).dedup.any
      (fun w => s.keywords.contains w)) = true) :
    s.score p = s.base_scorer.score p * s.weight p + filtered_account_boost ∧
    filtered_account_boost < 0 ∧
    s.score p < s.base_scorer.score p * s.weight p := by
  have hcontains : s.filtered_accounts.contains
      (get_full_account_name p.account.acct s.default_host) = true := hf
  have hw : s.weight p = s.base_scorer.weight p + 1 := by
    rw [FilteredScorer.weight]
    simp only [hcontains, if_true, hk]
  have hwpos : (0 : ℝ) ≤ s.weight p := by
    rw [hw]
    have := base_weight_nonneg s.base_scorer p
    linarith
  have hboost : filtered_account_boost < 0 := by
    rw [filtered_account_boost]; norm_num
  have hs : s.score p = s.base_scorer.score p * s.weight p + filtered_account_boost := by
    rw [FilteredScorer.score]
    simp only [not_lt.2 hwpos, if_false, hcontains, if_true]
  refine ⟨hs, hboost, ?_⟩
  rw [hs]
  linarith

/-- C3 (witness for the amended theorem): the concrete filtered scorer and
keyword-matching post of the counterexample satisfy the hypotheses. -/
theorem C3_filtered_boost_amended_witness :
    fsEx.is_filtered pM = true ∧
    ((findallWords (pyLower pM.content_text)).dedup.any
      (fun w => fsEx.keywords.contains w)) = true ∧
    fsEx.score pM = fsEx.base_scorer.score pM * fsEx.weight pM + filtered_account_boost :=
  ⟨by decide, by decide,
    (C3_filtered_boost_amended fsEx pM (by decide) (by decide)).1⟩

/-- C2 (code evaluated at the failing input): with the concrete Filtered
scorer, threshold selection on any nonempty post list raises
`AttributeError` — `ScoredPost` has no attribute `is_filtered` — instead of
partitioning the posts; the empty list is the only input that passes. -/
theorem C2_filtered_threshold_attribute_error :
    Threshold.NORMAL.posts_meeting_criteria [pW] fsEx.toScorer
      = .error .attributeError ∧
    Threshold.NORMAL.posts_meeting_criteria [pW, pM] fsEx.toScorer
      = .error .attributeError ∧
    fsEx.toScorer.name = "FilteredSimple" := by
  exact ⟨rfl, rfl, rfl⟩

/-- C9 (code evaluated at the failing and the passing inputs): with an empty
post list, or with a non-Filtered scorer under which every score is below the
eligibility bound, threshold selection returns the empty list with cutoff 0;
but with a Filtered scorer and a nonempty list of below-bound posts it raises
`AttributeError` instead of returning the empty list. -/
theorem C9_empty_eligible_set :
    Threshold.NORMAL.posts_meeting_criteria ([] : List ScoredPost) fsEx.toScorer
      = .ok [] ∧
    Threshold.NORMAL.posts_meeting_criteria ([] : List ScoredPost) negConfScorer
      = .ok [] ∧
    Threshold.NORMAL.posts_meeting_criteria [pA, pB] negConfScorer = .ok [] ∧
    negConfScorer.score pA < 0 ∧
    Threshold.NORMAL.posts_meeting_criteria [pW] fsEx.toScorer
      = .error .attributeError := by
  exact ⟨rfl, rfl, rfl, by norm_num [negConfScorer], rfl⟩

lemma sorted_getD_le {α : Type} [LinearOrderedField α] {s : List α}
    (hs : s.Sorted (· ≤ ·)) {i j : ℕ} (hij : i ≤ j) (hj : j < s.length) :
    s.getD i 0 ≤ s.getD j 0 := by
  have hi : i < s.length := lt_of_le_of_lt hij hj
  rw [List.getD_eq_getElem?_getD, List.getD_eq_getElem?_getD,
    List.getElem?_eq_getElem hi, List.getElem?_eq_getElem hj]
  have := hs.rel_get_of_le (a := ⟨i, hi⟩) (b := ⟨j, hj⟩) hij
  simpa using this

lemma floor_toNat_le {α : Type} [LinearOrderedField α] [FloorRing α] {x : α}
    (hx : 0 ≤ x) : ((⌊x⌋.toNat : ℕ) : α) ≤ x := by
  have h0 : (0 : ℤ) ≤ ⌊x⌋ := Int.floor_nonneg.2 hx
  have hcast : ((⌊x⌋.toNat : ℕ) : α) = ((⌊x⌋ : ℤ) : α) := by
    rw [← Int.cast_natCast, Int.toNat_of_nonneg h0]
  rw [hcast]
  exact Int.floor_le x

lemma lt_floor_toNat_add_one {α : Type} [LinearOrderedField α] [FloorRing α] {x : α}
    (hx : 0 ≤ x) : x < ((⌊x⌋.toNat : ℕ) : α) + 1 := by
  have h0 : (0 : ℤ) ≤ ⌊x⌋ := Int.floor_nonneg.2 hx
  have hcast : ((⌊x⌋.toNat : ℕ) : α) = ((⌊x⌋ : ℤ) : α) := by
    rw [← Int.cast_natCast, Int.toNat_of_nonneg h0]
  rw [hcast]
  exact Int.lt_floor_add_one x

lemma interpAt_mono {α : Type} [LinearOrderedField α] [FloorRing α] {s : List α}
    (hs : s.Sorted (· ≤ ·)) (hne : s ≠ []) {x y : α}
    (hx0 : 0 ≤ x) (hxy : x ≤ y) (hym : y ≤ ((s.length - 1 : ℕ) : α)) :
    interpAt s x ≤ interpAt s y := by
  have hy0 : 0 ≤ y := le_trans hx0 hxy
  have hxm : x ≤ ((s.length - 1 : ℕ) : α) := le_trans hxy hym
  have hn1 : 0 < s.length := List.length_pos.2 hne
  rw [interpAt, interpAt]
  set m : ℕ := s.length - 1 with hm
  set i : ℕ := ⌊x⌋.toNat with hidef
  set j : ℕ := ⌊y⌋.toNat with hjdef
  have hile : (i : α) ≤ x := floor_toNat_le hx0
  have hilt : x < (i : α) + 1 := lt_floor_toNat_add_one hx0
  have hjle : (j : α) ≤ y := floor_toNat_le hy0
  have hjlt : y < (j : α) + 1 := lt_floor_toNat_add_one hy0
  have hij : i ≤ j := by
    rw [hidef, hjdef]
    exact Int.toNat_le_toNat (Int.floor_mono hxy)
  have him : i ≤ m := by
    have : (i : α) ≤ (m : α) := le_trans hile hxm
    exact_mod_cast this
  have hjm : j ≤ m := by
    have : (j : α) ≤ (m : α) := le_trans hjle hym
    exact_mod_cast this
  have hmlt : m < s.length := by omega
  have hstep : ∀ k : ℕ, k < m → s.getD k 0 ≤ s.getD (k + 1) 0 := by
    intro k hk
    exact sorted_getD_le hs (Nat.le_succ k) (by omega)
  have hmono : ∀ a b : ℕ, a ≤ b → b ≤ m → s.getD a 0 ≤ s.getD b 0 := by
    intro a b hab hbm
    exact sorted_getD_le hs hab (by omega)
  have hfx_lt : ¬ (x - (i : α) = 0) → i < m := by
    intro hfx
    rcases lt_or_ge i m with h | h
    · exact h
    · exfalso
      have hge : (m : α) ≤ (i : α) := by exact_mod_cast h
      have : x ≤ (i : α) := le_trans hxm hge
      exact hfx (le_antisymm (by linarith) (by linarith))
  have hfy_lt : ¬ (y - (j : α) = 0) → j < m := by
    intro hfy
    rcases lt_or_ge j m with h | h
    · exact h
    · exfalso
      have hge : (m : α) ≤ (j : α) := by exact_mod_cast h
      have : y ≤ (j : α) := le_trans hym hge
      exact hfy (le_antisymm (by linarith) (by linarith))
  split_ifs with hfx hfy hfy
  · -- both integral
    exact hmono i j hij hjm
  · -- x integral, y fractional
    have hjm' : j < m := hfy_lt hfy
    have hd : 0 ≤ s.getD (j + 1) 0 - s.getD j 0 := by
      have := hstep j hjm'
      linarith
    have h1 : s.getD i 0 ≤ s.getD j 0 := hmono i j hij hjm
    have h2 : 0 ≤ (y - (j : α)) := by linarith
    have h3 : 0 ≤ (y - (j : α)) * (s.getD (j + 1) 0 - s.getD j 0) := mul_nonneg h2 hd
    linarith
  · -- x fractional, y integral
    have him' : i < m := hfx_lt hfx
    rcases eq_or_lt_of_le hij with heq | hlt
    · exfalso
      have hyj : y = (j : α) := by
        have : y - (j : α) = 0 := hfy
        linarith
      rw [← heq] at hyj
      have : x ≤ (i : α) := by rw [← hyj]; exact hxy
      exact hfx (le_antisymm (by linarith) (by linarith))
    · have hd : 0 ≤ s.getD (i + 1) 0 - s.getD i 0 := by
        have := hstep i him'
        linarith
      have hfx0 : 0 ≤ x - (i : α) := by linarith
      have hfx1 : x - (i : α) ≤ 1 := by linarith
      have h1 : (x - (i : α)) * (s.getD (i + 1) 0 - s.getD i 0)
          ≤ s.getD (i + 1) 0 - s.getD i 0 := mul_le_of_le_one_left hd hfx1
      have h2 : s.getD (i + 1) 0 ≤ s.getD j 0 := hmono (i + 1) j hlt hjm
      linarith
  · -- both fractional
    have him' : i < m := hfx_lt hfx
    have hjm' : j < m := hfy_lt hfy
    have hdi : 0 ≤ s.getD (i + 1) 0 - s.getD i 0 := by
      have := hstep i him'
      linarith
    have hdj : 0 ≤ s.getD (j + 1) 0 - s.getD j 0 := by
      have := hstep j hjm'
      linarith
    rcases eq_or_lt_of_le hij with heq | hlt
    · rw [← heq]
      have hfxy : x - (i : α) ≤ y - (i : α) := by
        have : (j : α) = (i : α) := by rw [heq]
        rw [← heq] at hjle hjlt
        linarith
      have h1 : (x - (i : α)) * (s.getD (i + 1) 0 - s.getD i 0)
          ≤ (y - (i : α)) * (s.getD (i + 1) 0 - s.getD i 0) :=
        mul_le_mul_of_nonneg_right hfxy hdi
      linarith
    · have hfx0 : 0 ≤ x - (i : α) := by linarith
      have hfx1 : x - (i : α) ≤ 1 := by linarith
      have h1 : (x - (i : α)) * (s.getD (i + 1) 0 - s.getD i 0)
          ≤ s.getD (i + 1) 0 - s.getD i 0 := mul_le_of_le_one_left hdi hfx1
      have h2 : s.getD (i + 1) 0 ≤ s.getD j 0 := hmono (i + 1) j hlt hjm
      have h3 : 0 ≤ (y - (j : α)) := by linarith
      have h4 : 0 ≤ (y - (j : α)) * (s.getD (j + 1) 0 - s.getD j 0) :=
        mul_nonneg h3 hdj
      linarith

lemma scoreatpercentile_mono {α : Type} [LinearOrderedField α] [FloorRing α]
    (scores : List α) (hne : scores ≠ []) {a b : ℕ} (hab : a ≤ b) (hb : b ≤ 100) :
    scoreatpercentile scores a ≤ scoreatpercentile scores b := by
  rw [scoreatpercentile, scoreatpercentile]
  have hsorted : (List.insertionSort (· ≤ ·) scores).Sorted (· ≤ ·) :=
    List.sorted_insertionSort _ _
  have hsne : List.insertionSort (· ≤ ·) scores ≠ [] := by
    intro hcon
    apply hne
    have hperm := List.perm_insertionSort (fun x1 x2 : α => x1 ≤ x2) scores
    rw [hcon] at hperm
    exact hperm.symm.eq_nil
  set m : ℕ := ((List.insertionSort (· ≤ ·) scores).length - 1 : ℕ)
  apply interpAt_mono hsorted hsne
  · positivity
  · gcongr
  · rw [div_le_iff₀ (by norm_num)]
    have hbcast : (b : α) ≤ 100 := by exact_mod_cast hb
    have hmn : (0 : α) ≤ (m : α) := by positivity
    nlinarith

lemma zip_scores_filter {α : Type} (f : ScoredPost → α) (g : α → Bool) :
    ∀ l : List ScoredPost,
      (((l.zip (l.map f)).filter (fun x => g x.2)).map Prod.fst)
        = l.filter (fun p => g (f p))
  | [] => rfl
  | p :: l => by
    simp only [List.map_cons, List.zip_cons_cons, List.filter_cons]
    cases hg : g (f p) <;>
      simp [hg, zip_scores_filter f g l]

lemma length_filter_of_imp {β : Type} (l : List β) (p q : β → Bool)
    (h : ∀ a, q a = true → p a = true) :
    (l.filter q).length ≤ (l.filter p).length :=
  (List.monotone_filter_right l h).length_le

lemma zip_scores_filter2 {α : Type} [LinearOrder α] (f : ScoredPost → α) (ms : α) :
    ∀ l : List ScoredPost,
      (((l.zip (l.map f)).filter (fun x => decide (ms ≤ x.2))).map Prod.fst)
        = l.filter (fun p => decide (ms ≤ f p))
  | [] => rfl
  | p :: l => by
    simp only [List.map_cons, List.zip_cons_cons, List.filter_cons]
    cases hg : decide (ms ≤ f p) <;>
      simp [hg, zip_scores_filter2 f ms l]

lemma posts_meeting_criteria_nonfiltered {α : Type} [LinearOrderedField α] [FloorRing α]
    (t : Threshold) (posts : List ScoredPost) (scorer : SPScorer α)
    (hname : ("Filtered".data.isPrefixOf scorer.name.data) = false) :
    t.posts_meeting_criteria posts scorer = .ok (selectNF t posts scorer) := by
  simp only [Threshold.posts_meeting_criteria, hname, Bool.false_eq_true, if_false,
    bind, Except.bind, pure, Except.pure, List.length_map,
    selectNF, cutoffNF, eligibleNF, zip_scores_filter2]

lemma threshold_value_le_100 (t : Threshold) : t.value ≤ 100 := by
  cases t <;> decide

lemma cutoffNF_mono {α : Type} [LinearOrderedField α] [FloorRing α]
    (t1 t2 : Threshold) (posts : List ScoredPost) (scorer : SPScorer α)
    (h12 : t1.value ≤ t2.value) :
    cutoffNF t1 posts scorer ≤ cutoffNF t2 posts scorer := by
  rw [cutoffNF, cutoffNF]
  split_ifs with hlen
  · apply scoreatpercentile_mono _ _ h12 (threshold_value_le_100 t2)
    intro hcon
    rw [List.map_eq_nil_iff] at hcon
    rw [hcon] at hlen
    simp at hlen
  · exact le_refl 0

/-- C4: for a non-Filtered scorer, threshold selection returns (without
error) exactly the eligible (score ≥ 0) posts whose score reaches the
percentile cutoff of the eligible scores — in particular every selected post
scores at least the percentile (linear-interpolation order statistic) — and
raising the percentile never grows the result. -/
theorem C4_threshold_selection {α : Type} [LinearOrderedField α] [FloorRing α]
    (t1 t2 : Threshold) (posts : List ScoredPost) (scorer : SPScorer α)
    (hname : ("Filtered".data.isPrefixOf scorer.name.data) = false)
    (h12 : t1.value ≤ t2.value) :
    Threshold.posts_meeting_criteria t1 posts scorer = .ok (selectNF t1 posts scorer) ∧
    Threshold.posts_meeting_criteria t2 posts scorer = .ok (selectNF t2 posts scorer) ∧
    (∀ p ∈ selectNF t1 posts scorer, p ∈ posts ∧ 0 ≤ scorer.score p ∧
      scoreatpercentile ((eligibleNF posts scorer).map scorer.score) t1.value
        ≤ scorer.score p) ∧
    (selectNF t2 posts scorer).length ≤ (selectNF t1 posts scorer).length := by
  refine ⟨posts_meeting_criteria_nonfiltered t1 posts scorer hname,
    posts_meeting_criteria_nonfiltered t2 posts scorer hname, ?_, ?_⟩
  · intro p hp
    rw [selectNF] at hp
    rcases List.mem_filter.1 hp with ⟨hpe, hpc⟩
    have hcut : cutoffNF t1 posts scorer ≤ scorer.score p := of_decide_eq_true hpc
    rcases List.mem_filter.1 (by rw [eligibleNF] at hpe; exact hpe) with ⟨hpp, hps⟩
    have hlen : 0 < (eligibleNF posts scorer).length :=
      List.length_pos.2 (List.ne_nil_of_mem hpe)
    rw [cutoffNF, if_pos hlen] at hcut
    exact ⟨hpp, of_decide_eq_true hps, hcut⟩
  · rw [selectNF, selectNF]
    apply length_filter_of_imp
    intro p hq
    have h2 : cutoffNF t2 posts scorer ≤ scorer.score p := of_decide_eq_true hq
    have h1 : cutoffNF t1 posts scorer ≤ scorer.score p :=
      le_trans (cutoffNF_mono t1 t2 posts scorer h12) h2
    exact decide_eq_true h1

/-- C4 (witness): with a concrete rational Simple-named scorer and three
posts, the NORMAL (95) selection is no larger than the LAX (90) one, and the
selection results are those of the source function. -/
theorem C4_threshold_selection_witness :
    ("Filtered".data.isPrefixOf qSimpleScorer.name.data) = false ∧
    Threshold.LAX.value ≤ Threshold.NORMAL.value ∧
    (Threshold.posts_meeting_criteria Threshold.LAX [pA, pB, pC] qSimpleScorer
      = .ok (selectNF Threshold.LAX [pA, pB, pC] qSimpleScorer) ∧
    Threshold.posts_meeting_criteria Threshold.NORMAL [pA, pB, pC] qSimpleScorer
      = .ok (selectNF Threshold.NORMAL [pA, pB, pC] qSimpleScorer) ∧
    (∀ p ∈ selectNF Threshold.LAX [pA, pB, pC] qSimpleScorer,
      p ∈ [pA, pB, pC] ∧ 0 ≤ qSimpleScorer.score p ∧
      scoreatpercentile ((eligibleNF [pA, pB, pC] qSimpleScorer).map qSimpleScorer.score)
        Threshold.LAX.value ≤ qSimpleScorer.score p) ∧
    (selectNF Threshold.NORMAL [pA, pB, pC] qSimpleScorer).length
      ≤ (selectNF Threshold.LAX [pA, pB, pC] qSimpleScorer).length) :=
  ⟨by decide, by decide,
    C4_threshold_selection Threshold.LAX Threshold.NORMAL [pA, pB, pC] qSimpleScorer
      (by decide) (by decide)⟩

lemma toScorer_score (b : BaseScorer) (p : ScoredPost) :
    (b.toScorer).score p = b.score p := rfl

lemma toScorer_name (b : BaseScorer) : (b.toScorer).name = b.get_name := rfl

lemma mem_runPipelinePosts {α : Type} [LinearOrderedField α] (scorer : SPScorer α)
    (posts : List ScoredPost) (p : ScoredPost) :
    p ∈ runPipelinePosts scorer posts ↔
      p ∈ posts ∧
      (!(run_filtered_accounts.contains p.account.acct)
        || p.matches_keywords run_keywords) = true ∧
      0 < scorer.score p := by
  simp only [runPipelinePosts, sortedByScoreDesc, List.mem_insertionSort,
    List.mem_filter, runPreFilter, decide_eq_true_eq]
  tauto

lemma sorted_runPipelinePosts {α : Type} [LinearOrderedField α] (scorer : SPScorer α)
    (posts : List ScoredPost) :
    (runPipelinePosts scorer posts).Sorted
      (fun a b => scorer.score b ≤ scorer.score a) := by
  haveI h1 : IsTotal ScoredPost (fun a b => scorer.score b ≤ scorer.score a) :=
    ⟨fun a b => le_total (scorer.score b) (scorer.score a)⟩
  haveI h2 : IsTrans ScoredPost (fun a b => scorer.score b ≤ scorer.score a) :=
    ⟨fun _ _ _ hab hbc => le_trans hbc hab⟩
  rw [runPipelinePosts]
  exact List.sorted_insertionSort _ _

/-- C1 (amended): the pipeline's selection stage does not consult the
ThresholdSelector at all (the `posts_meeting_criteria` calls of run.py are
commented out): for every batch and scorer, the list handed to rendering
consists of exactly the pre-filtered posts with strictly positive score — the
same for every configured percentile — sorted by score descending. -/
theorem C1_pipeline_amended {α : Type} [LinearOrderedField α]
    (scorer : SPScorer α) (posts : List ScoredPost) :
    (∀ p, p ∈ runPipelinePosts scorer posts ↔
      p ∈ posts ∧
      (!(run_filtered_accounts.contains p.account.acct)
        || p.matches_keywords run_keywords) = true ∧
      0 < scorer.score p) ∧
    (runPipelinePosts scorer posts).Sorted
      (fun a b => scorer.score b ≤ scorer.score a) :=
  ⟨fun p => mem_runPipelinePosts scorer posts p, sorted_runPipelinePosts scorer posts⟩

lemma gmean_pair (a b c : ℝ) (hc : 0 ≤ c) (h : a * (b * 1) = c ^ (2 : ℕ)) :
    gmean [a, b] = c := by
  rw [gmean]
  simp only [List.prod_cons, List.prod_nil, List.length_cons, List.length_nil]
  rw [h]
  norm_num
  rw [← Real.rpow_natCast c 2, ← Real.rpow_mul hc]
  norm_num

lemma simple_score_pA : BaseScorer.Simple.score pA = 0 := by
  rw [BaseScorer.score, SimpleScorer.score, if_neg (by decide), zero_mul]

lemma simple_score_pB : BaseScorer.Simple.score pB = 2 := by
  rw [BaseScorer.score, SimpleScorer.score, if_pos (by decide),
    UniformWeight.weight, mul_one]
  rw [show ((pB.reblogs_count : ℝ) + 1) = 4 from by norm_num [pB]]
  rw [show ((pB.favourites_count : ℝ) + 1) = 1 from by norm_num [pB]]
  exact gmean_pair 4 1 2 (by norm_num) (by norm_num)

lemma simple_score_pC : BaseScorer.Simple.score pC = 3 := by
  rw [BaseScorer.score, SimpleScorer.score, if_pos (by decide),
    UniformWeight.weight, mul_one]
  rw [show ((pC.reblogs_count : ℝ) + 1) = 9 from by norm_num [pC]]
  rw [show ((pC.favourites_count : ℝ) + 1) = 1 from by norm_num [pC]]
  exact gmean_pair 9 1 3 (by norm_num) (by norm_num)

/-- C1 (counterexample): with the Simple scorer and the batch `[pA, pB, pC]`
(scores 0, 2, 3), the threshold stage at the NORMAL (95th) percentile keeps
only `pC` (cutoff 2.9), but the pipeline's rendering list also contains `pB`:
what `run` hands to rendering is not the threshold stage's output. -/
theorem C1_pipeline_counterexample :
    Threshold.NORMAL.posts_meeting_criteria [pA, pB, pC] BaseScorer.Simple.toScorer
      = .ok [pC] ∧
    pB ∈ runPipelinePosts BaseScorer.Simple.toScorer [pA, pB, pC] ∧
    pB ∉ [pC] := by
  have hname : ("Filtered".data.isPrefixOf
      (BaseScorer.Simple.toScorer).name.data) = false := by decide
  have hE : eligibleNF [pA, pB, pC] BaseScorer.Simple.toScorer = [pA, pB, pC] := by
    norm_num [eligibleNF, List.filter_cons, List.filter_nil, toScorer_score,
      simple_score_pA, simple_score_pB, simple_score_pC]
  have hmap : (eligibleNF [pA, pB, pC] BaseScorer.Simple.toScorer).map
      (BaseScorer.Simple.toScorer).score = [0, 2, 3] := by
    rw [hE]
    simp [toScorer_score, simple_score_pA, simple_score_pB, simple_score_pC]
  have hsap : scoreatpercentile ([0, 2, 3] : List ℝ) 95 = 29 / 10 := by
    rw [scoreatpercentile,
      List.Sorted.insertionSort_eq (by norm_num [List.sorted_cons])]
    rw [show ((95 : ℕ) : ℝ) * ((([0, 2, 3] : List ℝ).length - 1 : ℕ) : ℝ) / 100
      = 19 / 10 from by norm_num]
    simp only [interpAt]
    rw [show (⌊(19 / 10 : ℝ)⌋) = 1 from Int.floor_eq_iff.mpr (by norm_num)]
    norm_num [List.getD]
  have hcut : cutoffNF Threshold.NORMAL [pA, pB, pC] BaseScorer.Simple.toScorer
      = 29 / 10 := by
    rw [cutoffNF, if_pos (by rw [hE]; norm_num), hmap]
    exact hsap
  have hsel : selectNF Threshold.NORMAL [pA, pB, pC] BaseScorer.Simple.toScorer
      = [pC] := by
    rw [selectNF, hE]
    simp only [hcut]
    norm_num [List.filter_cons, List.filter_nil, toScorer_score,
      simple_score_pA, simple_score_pB, simple_score_pC]
  refine ⟨?_, ?_, by decide⟩
  · rw [posts_meeting_criteria_nonfiltered _ _ _ hname, hsel]
  · rw [mem_runPipelinePosts]
    refine ⟨by decide, by decide, ?_⟩
    rw [toScorer_score, simple_score_pB]
    norm_num

end MastodonDigest
